import Mathlib

/-!
Verification of the broker (coretime marketplace) pallet and of the
`ValidateUnsignedDef` parser of this repository.

The broker pallet implementation itself is not among the provided source
files; only its benchmark driver `src/substrate/frame/broker/src/benchmarking.rs`
is, which pins concrete behaviour through its assertions.  The operations the
claims speak about are therefore modelled from the specification, with every
constant and rule that the benchmark assertions pin taken from those
assertions.  `validate_unsigned.rs` is present in full and is embedded
directly.
-/

namespace Broker

/-- Number of addressable parts of one core; pinned by `CORE_MASK_BITS` uses
in the benchmark (`0x00000_fffff_fffff_00000` is an 80-bit literal and the
`process_core_schedule` benchmark expects `CORE_MASK_BITS` items). -/
def CORE_MASK_BITS : Nat := 80

/-- A `CoreMask` is an 80-bit bitset, modelled as a `Nat` below `2 ^ 80`. -/
def completeMask : Nat := 2 ^ CORE_MASK_BITS - 1

/-- `m` is a bitwise subset of `p`. -/
def maskSubset (m p : Nat) : Prop := m &&& p = m

instance (m p : Nat) : Decidable (maskSubset m p) := by
  unfold maskSubset; infer_instance

/-- A region together with its id fields: `[rbegin, rend)` on core `core`,
owning the parts in `mask`, owned by `owner` (source: `RegionId` plus
`RegionRecord`; `begin`/`end` renamed since `end` is a Lean keyword). -/
structure FullRegion where
  rbegin : Nat
  rend : Nat
  core : Nat
  mask : Nat
  owner : Nat
  deriving DecidableEq, Repr

inductive SplitError where
  | InvalidMask
  | InvalidOffset
  deriving DecidableEq, Repr

/-- Modelled from the spec: `partition(region, pivot_offset)` requires
`0 < pivot_offset < region.end - region.begin` and produces two regions with
the same mask and owner spanning `[begin, begin+pivot_offset)` and
`[begin+pivot_offset, end)`; fails with `InvalidOffset` otherwise.
(The broker implementation is not under the provided sources; the
`partition` benchmark's `Partitioned` event assertion matches this shape.) -/
def partition (r : FullRegion) (pivot : Nat) :
    Except SplitError (FullRegion × FullRegion) :=
  if 0 < pivot ∧ pivot < r.rend - r.rbegin then
    .ok ({ r with rend := r.rbegin + pivot }, { r with rbegin := r.rbegin + pivot })
  else
    .error .InvalidOffset

/-- Modelled from the spec: `interlace(region, mask)` requires `mask` to be a
non-empty subset of `region.mask` and produces two regions sharing the
region's time bounds and owner, one with `mask` and one with
`region.mask \ mask`; fails with `InvalidMask` otherwise.  The complement is
computed as `region.mask ^^^ mask`, exactly as the `interlace` benchmark's
`Interlaced` event assertion does (`CoreMask::complete() ^ mask`). -/
def interlace (r : FullRegion) (m : Nat) :
    Except SplitError (FullRegion × FullRegion) :=
  if m ≠ 0 ∧ maskSubset m r.mask then
    .ok ({ r with mask := m }, { r with mask := r.mask ^^^ m })
  else
    .error .InvalidMask

/-- The postcondition claimed for `partition`: the two produced regions keep
the mask and owner, span `[begin, begin+k)` and `[begin+k, end)`, are
contiguous, non-overlapping, and together cover exactly the original span. -/
def partitionPost (r : FullRegion) (k : Nat) : Prop :=
  ∃ a b, partition r k = .ok (a, b) ∧
    a.mask = r.mask ∧ b.mask = r.mask ∧ a.owner = r.owner ∧ b.owner = r.owner ∧
    a.rbegin = r.rbegin ∧ a.rend = r.rbegin + k ∧
    b.rbegin = r.rbegin + k ∧ b.rend = r.rend ∧
    a.rend = b.rbegin ∧
    Disjoint (Finset.Ico a.rbegin a.rend) (Finset.Ico b.rbegin b.rend) ∧
    Finset.Ico a.rbegin a.rend ∪ Finset.Ico b.rbegin b.rend =
      Finset.Ico r.rbegin r.rend

/-- The postcondition claimed for `interlace`: exactly two regions sharing
`R`'s time bounds and owner, masks disjoint, bitwise union equal to the
original mask, the second mask being `R.mask` with `m` removed. -/
def interlacePost (r : FullRegion) (m : Nat) : Prop :=
  ∃ a b, interlace r m = .ok (a, b) ∧
    a.rbegin = r.rbegin ∧ b.rbegin = r.rbegin ∧ a.rend = r.rend ∧ b.rend = r.rend ∧
    a.core = r.core ∧ b.core = r.core ∧ a.owner = r.owner ∧ b.owner = r.owner ∧
    a.mask = m ∧
    a.mask &&& b.mask = 0 ∧
    a.mask ||| b.mask = r.mask ∧
    (∀ i, b.mask.testBit i = (r.mask.testBit i && !(m.testBit i)))

structure InstaPoolHistoryRecord where
  private_contributions : Nat
  system_contributions : Nat
  maybe_payout : Option Nat
  deriving DecidableEq, Repr

structure ClaimsReadyEvent where
  tick : Nat
  system_payout : Nat
  private_payout : Nat
  deriving DecidableEq, Repr

/-- Modelled from the spec: the proportional split performed by
`process_revenue`: `private_payout = amount * private_contributions /
(private_contributions + system_contributions)` (integer division),
`system_payout = amount - private_payout` (remainder goes to system). -/
def revenueSplit (amount p s : Nat) : Nat × Nat :=
  let private_payout := amount * p / (p + s)
  (private_payout, amount - private_payout)

/-- Modelled from the spec: `process_revenue` locates the
`InstaPoolHistoryRecord` for the timeslice corresponding to `until` that
lacks a payout, splits the amount proportionally, stores the split as the
record's payout and emits a `ClaimsReady` notification; it is a no-op when no
matching pending record exists.  The broker implementation is not under the
provided sources; the `process_revenue` benchmark's `ClaimsReady` assertion
(amount 10_000_000, contributions 4/6 giving 4_000_000/6_000_000) pins the
split. -/
def process_revenue (tick amount : Nat) (rec : Option InstaPoolHistoryRecord) :
    Option (InstaPoolHistoryRecord × ClaimsReadyEvent) :=
  match rec with
  | none => none
  | some rec =>
    match rec.maybe_payout with
    | some _ => none
    | none =>
      let split := revenueSplit amount rec.private_contributions rec.system_contributions
      some ({ rec with maybe_payout := some split.1 },
            { tick := tick, system_payout := split.2, private_payout := split.1 })

/-- Id of a region as keyed in the regions ledger (source `RegionId`:
`begin`, `core`, `mask`; `begin` renamed as in `FullRegion`). -/
structure RegionId where
  rbegin : Nat
  core : Nat
  mask : Nat
  deriving DecidableEq, Repr

/-- Source `SaleInfoRecord` (field list as in the `rotate_sale` benchmark's
record literal). -/
structure SaleInfoRecord where
  sale_start : Nat
  leadin_length : Nat
  end_price : Nat
  sellout_price : Option Nat
  region_begin : Nat
  region_end : Nat
  first_core : Nat
  ideal_cores_sold : Nat
  cores_offered : Nat
  cores_sold : Nat
  deriving DecidableEq, Repr

inductive PurchaseError where
  | SaleNotActive
  | Oversold
  | PriceTooHigh
  deriving DecidableEq, Repr

/-- Modelled from the spec: `purchase(buyer, max_price)` during a sale at
current price `price`.  It requires an active sale with unsold cores
remaining and `price ≤ max_price`; it allocates the next unsold core index,
creates a full-mask region spanning the sale's region bounds and increments
`cores_sold`.  The spec says it "updates `sellout_price` the first time all
offered cores sell out", but the `purchase` benchmark in
`src/substrate/frame/broker/src/benchmarking.rs` asserts
`sellout_price == Some(10_000_000)` right after the first of the many
offered cores is sold; the model therefore follows the source and sets
`sellout_price` at the first successful purchase (whenever it is still
`None`), keeping any already-set value unchanged. -/
def purchase (sale : SaleInfoRecord) (price max_price : Nat) (active : Bool) :
    Except PurchaseError (SaleInfoRecord × RegionId) :=
  if active = false then .error .SaleNotActive
  else if sale.cores_offered ≤ sale.cores_sold then .error .Oversold
  else if max_price < price then .error .PriceTooHigh
  else
    .ok ({ sale with
            cores_sold := sale.cores_sold + 1,
            sellout_price := some (sale.sellout_price.getD price) },
         { rbegin := sale.region_begin,
           core := sale.first_core + sale.cores_sold,
           mask := completeMask })

/-- The sale state of the `purchase` benchmark right before the purchase:
ten reserved-or-leased cores, 990 cores offered, none sold yet, no sellout
price. -/
def benchSale : SaleInfoRecord :=
  { sale_start := 1, leadin_length := 1, end_price := 10000000,
    sellout_price := none, region_begin := 4, region_end := 7,
    first_core := 10, ideal_cores_sold := 0, cores_offered := 990,
    cores_sold := 0 }

/-- `benchSale` after one successful purchase at price 10_000_000. -/
def benchSaleAfter : SaleInfoRecord :=
  { benchSale with cores_sold := 1, sellout_price := some 10000000 }

/-- The per-timeslice pool-record state consumed by revenue claims: the
tracked remaining (private) contributions and the remaining resolved
payout. -/
structure PoolRecordState where
  contributions : Nat
  payout : Nat
  deriving DecidableEq, Repr

/-- Modelled from the spec: one timeslice claim of weight `w` (the claiming
region's mask weight) against a history record with a resolved payout.  It
pays `payout * w / contributions` (integer division), decrements the tracked
remaining contribution by `w`, and deletes the record once its tracked
contributions reach zero.  Division by the record's current contributions,
and the absence of any cap at the remaining payout, are pinned by the
`claim_revenue` benchmark: claiming an 80-part region against a record with
4 tracked contributions and payout 10_000_000 is asserted to pay
200_000_000 and delete the record. -/
def claimStep (rec : PoolRecordState) (w : Nat) : Nat × Option PoolRecordState :=
  let p := rec.payout * w / rec.contributions
  let c := rec.contributions - w
  (p, if c = 0 then none else some { contributions := c, payout := rec.payout - p })

/-- Total amount paid by running the claims `ws` (one region weight per
claim) in order against `rec`, stopping once the record is deleted. -/
def runClaims (rec : PoolRecordState) : List Nat → Nat
  | [] => 0
  | w :: ws =>
    (claimStep rec w).1 +
      (match (claimStep rec w).2 with
       | none => 0
       | some rec2 => runClaims rec2 ws)

/-- Each claim's weight stays within the record's tracked remaining
contributions (the consistent-state condition: a pool record's contribution
total counts every contributed part, so genuine claimants never exceed
it). -/
def validClaims (rec : PoolRecordState) : List Nat → Prop
  | [] => True
  | w :: ws =>
    w ≤ rec.contributions ∧
    (match (claimStep rec w).2 with
     | none => True
     | some rec2 => validClaims rec2 ws)

/-- Modelled from the spec: the bounded-walk bookkeeping of `claim_revenue`:
starting at region begin `b` with `len` timeslices in the region's span, one
call walks up to `m` timeslices and returns the next unclaimed boundary
`b + min m len`, or none when the region's span is exhausted. -/
def claimNext (b len m : Nat) : Option Nat :=
  let walked := min m len
  if b + walked < b + len then some (b + walked) else none

/-- Source `Event::SaleInitialized` field list. -/
structure SaleInitializedEvent where
  sale_start : Nat
  leadin_length : Nat
  start_price : Nat
  end_price : Nat
  region_begin : Nat
  region_end : Nat
  ideal_cores_sold : Nat
  cores_offered : Nat
  deriving DecidableEq, Repr

/-- The fixed multiplicative factor between a new sale's start price and its
end price; pinned by the `start_sales` and `rotate_sale` benchmarks, whose
`SaleInitialized` assertions expect `start_price = 1_000_000_000` for
`end_price = 10_000_000`. -/
def LEADIN_FACTOR : Nat := 100

/-- Modelled from the spec: the fresh `SaleInfoRecord` and the
`SaleInitialized` notification produced whenever a new sale record is
created (by `start_sale` or by rotation): `end_price` is the given
initial/end price, the start price is derived from it by the fixed
multiplicative factor, the region bounds are the previous/committable
bounds shifted by one `region_length`, `cores_offered` is
`core_count - reserved - leased` (saturating), `first_core` is the
reserved-plus-leased core count, and pricing counters are reset. -/
def newSaleRecord (now interlude leadin region_length end_price : Nat)
    (prev_region_begin prev_region_end : Nat)
    (core_count reserved leased : Nat) : SaleInfoRecord × SaleInitializedEvent :=
  let region_begin := prev_region_begin + region_length
  let region_end := prev_region_end + region_length
  let cores_offered := core_count - reserved - leased
  ({ sale_start := now + interlude, leadin_length := leadin,
     end_price := end_price, sellout_price := none,
     region_begin := region_begin, region_end := region_end,
     first_core := reserved + leased, ideal_cores_sold := 0,
     cores_offered := cores_offered, cores_sold := 0 },
   { sale_start := now + interlude, leadin_length := leadin,
     start_price := LEADIN_FACTOR * end_price, end_price := end_price,
     region_begin := region_begin, region_end := region_end,
     ideal_cores_sold := 0, cores_offered := cores_offered })

/-- Source `CoreAssignment` (the `Pool` and `Idle` variants exist alongside
`Task`). -/
inductive CoreAssignment where
  | Task (task : Nat)
  | Pool
  | Idle
  deriving DecidableEq, Repr

/-- Source `ScheduleItem`: an assignment plus the mask it occupies. -/
structure ScheduleItem where
  assignment : CoreAssignment
  mask : Nat
  deriving DecidableEq, Repr

inductive Finality where
  | Provisional
  | Final
  deriving DecidableEq, Repr

/-- One registered auto-renewal intent: the core it renews, the task running
on it, and the timeslice at which its commitment elapses. -/
structure AutoRenewalRecord where
  core : Nat
  task : Nat
  next_renewal : Nat
  deriving DecidableEq, Repr

/-- Source `Event::Renewed` field list (`begin` renamed to `rbegin`). -/
structure RenewedEvent where
  who : Nat
  old_core : Nat
  core : Nat
  price : Nat
  rbegin : Nat
  duration : Nat
  workload : List ScheduleItem
  deriving DecidableEq, Repr

/-- Modelled from the spec: the renewal price bump — the historical price
increased by `renewal_bump` percent (10 percent in the benchmark
configuration). -/
def bumpedPrice (bump_percent price : Nat) : Nat :=
  price + price * bump_percent / 100

/-- The outcome of executing one auto-renewal: the emitted `Renewed`
notification, the workplan key written by the re-assignment, and the
finality it is made with. -/
structure RenewalExecution where
  event : RenewedEvent
  workplan_key : Nat × Nat
  finality : Finality
  deriving DecidableEq, Repr

/-- Modelled from the spec: execution of a single auto-renewal intent during
`rotate_sale`.  An intent is executed when its core's commitment has elapsed
(`next_renewal ≤` the new sale's `region_begin`) and the core has a renewal
record (`records` gives the historical price and the committed workload per
core): it purchases a fresh region spanning the new sale's region bounds at
the bumped price, re-assigns the same task with `Final` finality, and emits
a `Renewed` notification carrying the old and the new core index (equal
here, as in the benchmark's `Renewed` assertions) and the renewed
workload. -/
def renewIntent (bump : Nat) (sale : SaleInfoRecord)
    (records : Nat → Option (Nat × List ScheduleItem))
    (intent : AutoRenewalRecord) : Option RenewalExecution :=
  if intent.next_renewal ≤ sale.region_begin then
    match records intent.core with
    | none => none
    | some (price, workload) =>
      some { event := { who := intent.task, old_core := intent.core,
                        core := intent.core,
                        price := bumpedPrice bump price,
                        rbegin := sale.region_begin,
                        duration := sale.region_end - sale.region_begin,
                        workload := workload },
             workplan_key := (sale.region_begin, intent.core),
             finality := .Final }
  else none

/-- Modelled from the spec: the auto-renewal pass of `rotate_sale`: the
registered intents (kept sorted by core index) are processed in registry
order, executing every due one. -/
def rotateRenewals (bump : Nat) (sale : SaleInfoRecord)
    (records : Nat → Option (Nat × List ScheduleItem))
    (intents : List AutoRenewalRecord) : List RenewalExecution :=
  intents.filterMap (renewIntent bump sale records)

/-- The new sale record of the `rotate_sale` benchmark (region bounds 7–10,
the first ten cores held by leases). -/
def c7sale : SaleInfoRecord :=
  { sale_start := 2, leadin_length := 1, end_price := 10000000,
    sellout_price := none, region_begin := 7, region_end := 10,
    first_core := 10, ideal_cores_sold := 0, cores_offered := 980,
    cores_sold := 0 }

/-- Renewal records per core as in the `rotate_sale` benchmark: price 10 and
a one-item full-mask workload for the task registered on that core. -/
def c7records (c : Nat) : Option (Nat × List ScheduleItem) :=
  some (10, [{ assignment := .Task (c + 990), mask := completeMask }])

/-- Two registered auto-renewal intents on cores 10 and 11 (tasks 1000 and
1001), both due at the benchmark's rotation boundary. -/
def c7intents : List AutoRenewalRecord :=
  [{ core := 10, task := 1000, next_renewal := 7 },
   { core := 11, task := 1001, next_renewal := 7 }]

/-- Source `PotentialRenewalId`: the core and the timeslice at which the
renewable commitment ends. -/
structure PotentialRenewalId where
  core : Nat
  when : Nat
  deriving DecidableEq, Repr

/-- Source `CompletionStatus`: a renewal-eligible assignment is complete
with its schedule, or still partial on a submask. -/
inductive CompletionStatus where
  | Complete (schedule : List ScheduleItem)
  | Partial (mask : Nat)
  deriving DecidableEq, Repr

/-- Source `PotentialRenewalRecord`: the price it was purchased at and its
completion status. -/
structure PotentialRenewalRecord where
  price : Nat
  completion : CompletionStatus
  deriving DecidableEq, Repr

/-- Modelled from the spec: `assign(region, task, finality)` writes a
schedule entry `region.mask → Task(task)` into the workplan at
`(region.begin, region.core)`; if `finality` is `Final` and the region
carries its paid price, it additionally persists a renewal-eligible copy of
the assignment keyed by `(core, region.end)`, holding the purchase price and
the completed schedule. -/
def assign (r : FullRegion) (paid : Option Nat) (task : Nat) (f : Finality) :
    ((Nat × Nat) × List ScheduleItem) ×
      Option (PotentialRenewalId × PotentialRenewalRecord) :=
  let schedule : List ScheduleItem := [{ assignment := .Task task, mask := r.mask }]
  (((r.rbegin, r.core), schedule),
   match f, paid with
   | .Final, some price =>
     some ({ core := r.core, when := r.rend },
           { price := price, completion := .Complete schedule })
   | _, _ => none)

/-- Number of parts of a core mask that are set (the mask is an 80-bit
bitset). -/
def countOnes80 (m : Nat) : Nat :=
  (List.range CORE_MASK_BITS).countP (fun i => m.testBit i)

/-- Weight of one schedule item in parts of 57600: each of the 80 mask bits
stands for 57600 / 80 = 720 parts, so a complete mask weighs the full
57600. -/
def itemWeight (mask : Nat) : Nat := (57600 / CORE_MASK_BITS) * countOnes80 mask

/-- Source `Event::CoreAssigned` field list. -/
structure CoreAssignedEvent where
  core : Nat
  when : Nat
  assignment : List (CoreAssignment × Nat)
  deriving DecidableEq, Repr

/-- Modelled from the spec: `process_core_schedule(timeslice, core)` moves
the workplan entry at `(timeslice, core)`, if any, into the live workload
for that core, replacing the previous entry wholesale, and emits a
core-assigned notification enumerating the resulting (assignment, weight)
pairs; a missing workplan entry leaves the core untouched. -/
def process_core_schedule (rc_begin core : Nat)
    (entry : Option (List ScheduleItem)) (workload : List ScheduleItem) :
    List ScheduleItem × Option CoreAssignedEvent :=
  match entry with
  | none => (workload, none)
  | some sched =>
    (sched,
     some { core := core, when := rc_begin,
            assignment := sched.map (fun it => (it.assignment, itemWeight it.mask)) })

/-- The `process_core_schedule` benchmark's workplan entry: 80 schedule
items, `Task i` on the complete mask. -/
def benchSchedule : List ScheduleItem :=
  (List.range CORE_MASK_BITS).map
    (fun i => { assignment := .Task i, mask := completeMask })

namespace ValidateUnsigned

/-- Shallow embedding of the `syn::Item` values that
`ValidateUnsignedDef::try_from` distinguishes: an impl block carries its
optional trait path as the list of path segment identifiers (`none` for an
inherent impl without a trait); every other item kind is collapsed into
`other`, since the source only tests `if let syn::Item::Impl`. -/
inductive SynItem where
  | implItem (traitSegments : Option (List String))
  | other
  deriving DecidableEq, Repr

/-- Embedding of `ValidateUnsignedDef::try_from`
(`src/substrate/frame/support/procedural/src/pallet/parse/validate_unsigned.rs`).
The two helper checks `helper::check_pallet_struct_usage` and
`helper::check_impl_gen` are declared outside the provided sources and are
abstracted as `Except`-valued arguments, run in source order after the
trait-name test.  Each early return's error message is the source's. -/
def tryFrom (checkStruct checkGen : Except String Unit)
    (item : SynItem) : Except String Unit :=
  match item with
  | .other => .error "Invalid pallet::validate_unsigned, expected item impl"
  | .implItem none =>
    .error "Invalid pallet::validate_unsigned, expected impl<..> ValidateUnsigned for Pallet<..>"
  | .implItem (some segs) =>
    match segs.getLast? with
    | none =>
      .error "Invalid pallet::validate_unsigned, expected impl<..> ValidateUnsigned for Pallet<..>"
    | some last =>
      if last = "ValidateUnsigned" then
        match checkStruct with
        | .error e => .error e
        | .ok _ =>
          match checkGen with
          | .error e => .error e
          | .ok _ => .ok ()
      else .error "Invalid pallet::validate_unsigned, expected trait ValidateUnsigned"

end ValidateUnsigned

/-- C4: for every region `R` and pivot offset `k` with
`0 < k < R.end - R.begin`, `partition(R, k)` produces exactly two regions with
the same mask and owner as `R` whose time spans are `[R.begin, R.begin+k)` and
`[R.begin+k, R.end)`: contiguous, non-overlapping, and together equal to `R`'s
original span. -/
theorem partition_splits_span (r : FullRegion) (k : Nat)
    (hk : 0 < k) (hke : k < r.rend - r.rbegin) : partitionPost r k := by
  refine ⟨{ r with rend := r.rbegin + k }, { r with rbegin := r.rbegin + k },
    ?_, rfl, rfl, rfl, rfl, rfl, rfl, rfl, rfl, rfl, ?_, ?_⟩
  · rw [partition, if_pos ⟨hk, hke⟩]
  · exact Finset.Ico_disjoint_Ico_consecutive _ _ _
  · show Finset.Ico r.rbegin (r.rbegin + k) ∪ Finset.Ico (r.rbegin + k) r.rend =
      Finset.Ico r.rbegin r.rend
    exact Finset.Ico_union_Ico_eq_Ico (Nat.le_add_right _ _) (by omega)

/-- Witness for C4 at the benchmark's region shape (`region_length = 3`,
pivot 2). -/
theorem partition_splits_span_witness :
    partitionPost { rbegin := 4, rend := 7, core := 0, mask := completeMask, owner := 1 } 2 :=
  partition_splits_span _ 2 (by decide) (by decide)

lemma testBit_subset {m p : Nat} (h : m &&& p = m) (i : Nat) :
    m.testBit i = true → p.testBit i = true := by
  intro hm
  have := congrArg (fun x => Nat.testBit x i) h
  simp only [Nat.testBit_land, hm, Bool.true_and] at this
  exact this

/-- C3: for every region `R` and non-empty subset mask `m` of `R.mask`,
`interlace(R, m)` produces exactly two regions sharing `R`'s time bounds and
owner whose masks are disjoint and whose bitwise union equals `R`'s original
mask, the second mask being `R.mask` with `m` removed. -/
theorem interlace_splits_mask (r : FullRegion) (m : Nat)
    (hne : m ≠ 0) (hsub : maskSubset m r.mask) : interlacePost r m := by
  refine ⟨{ r with mask := m }, { r with mask := r.mask ^^^ m },
    ?_, rfl, rfl, rfl, rfl, rfl, rfl, rfl, rfl, rfl, ?_, ?_, ?_⟩
  · rw [interlace, if_pos ⟨hne, hsub⟩]
  · apply Nat.eq_of_testBit_eq
    intro i
    simp only [Nat.testBit_land, Nat.testBit_xor, Nat.zero_testBit]
    cases hm : Nat.testBit m i
    · simp
    · simp [testBit_subset hsub i hm]
  · apply Nat.eq_of_testBit_eq
    intro i
    simp only [Nat.testBit_or, Nat.testBit_xor]
    cases hm : Nat.testBit m i
    · simp
    · simp [testBit_subset hsub i hm]
  · intro i
    simp only [Nat.testBit_xor]
    cases hm : Nat.testBit m i
    · simp
    · simp [testBit_subset hsub i hm]

/-- Witness for C3 at the benchmark's pivot mask
`0x00000_fffff_fffff_00000` against the complete 80-bit mask. -/
theorem interlace_splits_mask_witness :
    interlacePost
      { rbegin := 4, rend := 7, core := 0, mask := completeMask, owner := 1 }
      0x00000ffffffffff00000 :=
  interlace_splits_mask _ _ (by decide) (by decide)

/-- C2: for every revenue amount `A` and pending record with contributions
`p`, `s` with `p + s > 0`, `process_revenue` splits `A` into
`private = floor(A*p/(p+s))` and `system = A - private`, so that
`private + system = A` exactly, and emits a claims-ready notification
carrying that split. -/
theorem process_revenue_exact_split (tick A : Nat) (rec : InstaPoolHistoryRecord)
    (hpend : rec.maybe_payout = none)
    (hpos : 0 < rec.private_contributions + rec.system_contributions) :
    ∃ rec' ev, process_revenue tick A (some rec) = some (rec', ev) ∧
      ev.private_payout =
        A * rec.private_contributions /
          (rec.private_contributions + rec.system_contributions) ∧
      ev.system_payout = A - ev.private_payout ∧
      ev.private_payout + ev.system_payout = A ∧
      ev.tick = tick ∧
      rec'.maybe_payout = some ev.private_payout := by
  obtain ⟨p, s, mp⟩ := rec
  change mp = none at hpend
  change 0 < p + s at hpos
  subst hpend
  have hle : A * p / (p + s) ≤ A := by
    calc A * p / (p + s)
        ≤ A * (p + s) / (p + s) :=
          Nat.div_le_div_right (Nat.mul_le_mul (le_refl A) (Nat.le_add_right _ _))
      _ = A := Nat.mul_div_cancel A hpos
  exact ⟨_, _, rfl, rfl, rfl, Nat.add_sub_cancel' hle, rfl, rfl⟩

/-- Witness for C2 at the `process_revenue` benchmark's input: amount
10_000_000, private contributions 4, system contributions 6. -/
theorem process_revenue_exact_split_witness :
    ∃ rec' ev,
      process_revenue 4 10000000
        (some { private_contributions := 4, system_contributions := 6,
                maybe_payout := none }) = some (rec', ev) ∧
      ev.private_payout = 10000000 * 4 / (4 + 6) ∧
      ev.system_payout = 10000000 - ev.private_payout ∧
      ev.private_payout + ev.system_payout = 10000000 ∧
      ev.tick = 4 ∧
      rec'.maybe_payout = some ev.private_payout :=
  process_revenue_exact_split 4 10000000 _ rfl (by decide)

/-- Counterexample to C1 as stated: at the `purchase` benchmark's sale state
(990 cores offered, none sold), a single successful purchase at price
10_000_000 already sets `sellout_price = Some(10_000_000)`, although
`cores_sold = 1` is far from the `cores_offered`-th successful purchase, so
`sellout_price` does not first become `Some` when all offered cores sell
out. -/
theorem purchase_sellout_counterexample :
    purchase benchSale 10000000 10000000 true =
      .ok (benchSaleAfter,
           { rbegin := 4, core := 10, mask := completeMask }) ∧
    benchSaleAfter.sellout_price = some 10000000 ∧
    benchSaleAfter.cores_sold = 1 ∧
    benchSaleAfter.cores_offered = 990 :=
  ⟨rfl, rfl, rfl, rfl⟩

/-- C1 (amended): during an active sale, a purchase succeeds iff
`cores_sold < cores_offered` and `current_price ≤ max_price`; on a
successful purchase `sellout_price` becomes `Some(current_price)` if it was
still `None` (in particular at the first successful purchase) and keeps its
previous value otherwise, so that once set it stays fixed for the remainder
of the sale. -/
theorem purchase_ok_iff_and_sellout (sale : SaleInfoRecord) (price maxp : Nat) :
    ((∃ out, purchase sale price maxp true = .ok out) ↔
      sale.cores_sold < sale.cores_offered ∧ price ≤ maxp) ∧
    (∀ s' id, purchase sale price maxp true = .ok (s', id) →
      s'.cores_sold = sale.cores_sold + 1 ∧
      (sale.sellout_price = none → s'.sellout_price = some price) ∧
      (∀ p0, sale.sellout_price = some p0 → s'.sellout_price = some p0)) := by
  constructor
  · constructor
    · rintro ⟨out, hout⟩
      rw [purchase] at hout
      simp only [if_neg (by simp : ¬(true = false))] at hout
      split at hout
      · simp at hout
      · split at hout
        · simp at hout
        · omega
    · rintro ⟨hsold, hprice⟩
      rw [purchase, if_neg (by simp : ¬(true = false)), if_neg (by omega),
        if_neg (by omega)]
      exact ⟨_, rfl⟩
  · intro s' id hout
    rw [purchase] at hout
    rw [if_neg (by simp : ¬(true = false))] at hout
    split at hout
    · simp at hout
    · split at hout
      · simp at hout
      · injection hout with hout
        injection hout with h1 h2
        subst h1
        refine ⟨rfl, ?_, ?_⟩
        · intro hn; rw [hn]; rfl
        · intro p0 hp; rw [hp]; rfl

/-- Witness for C1 at the `purchase` benchmark's state: the purchase at
price = max_price = 10_000_000 succeeds and sets
`sellout_price = Some(10_000_000)`. -/
theorem purchase_ok_iff_and_sellout_witness :
    (∃ out, purchase benchSale 10000000 10000000 true = .ok out) ∧
    benchSaleAfter.cores_sold = benchSale.cores_sold + 1 ∧
    benchSaleAfter.sellout_price = some 10000000 :=
  ⟨(purchase_ok_iff_and_sellout benchSale 10000000 10000000).1.mpr
      ⟨by decide, by decide⟩,
   ((purchase_ok_iff_and_sellout benchSale 10000000 10000000).2
      benchSaleAfter { rbegin := 4, core := 10, mask := completeMask }
      rfl).1,
   ((purchase_ok_iff_and_sellout benchSale 10000000 10000000).2
      benchSaleAfter { rbegin := 4, core := 10, mask := completeMask }
      rfl).2.1 rfl⟩

lemma claimStep_fst (rec : PoolRecordState) (w : Nat) :
    (claimStep rec w).1 = rec.payout * w / rec.contributions := rfl

lemma claimStep_snd_none (rec : PoolRecordState) (w : Nat) :
    (claimStep rec w).2 = none ↔ rec.contributions ≤ w := by
  unfold claimStep
  dsimp only
  split
  · next h => exact iff_of_true rfl (by omega)
  · next h => exact iff_of_false (by simp) (by omega)

lemma claimStep_snd_some {rec : PoolRecordState} {w : Nat} {rec2 : PoolRecordState}
    (h : (claimStep rec w).2 = some rec2) :
    rec2.contributions = rec.contributions - w ∧
    rec2.payout = rec.payout - (claimStep rec w).1 := by
  unfold claimStep at h
  dsimp only at h
  split at h
  · simp at h
  · injection h with h
    subst h
    exact ⟨rfl, rfl⟩

lemma runClaims_le (ws : List Nat) :
    ∀ rec : PoolRecordState, validClaims rec ws → runClaims rec ws ≤ rec.payout := by
  induction ws with
  | nil => intro rec _; exact Nat.zero_le _
  | cons w ws ih =>
    intro rec hv
    obtain ⟨hw, hrest⟩ := hv
    have hp : (claimStep rec w).1 ≤ rec.payout := by
      rw [claimStep_fst]
      rcases Nat.eq_zero_or_pos rec.contributions with h0 | h0
      · have hw0 : w = 0 := by omega
        simp [hw0]
      · calc rec.payout * w / rec.contributions
            ≤ rec.payout * rec.contributions / rec.contributions :=
              Nat.div_le_div_right (Nat.mul_le_mul (le_refl _) hw)
          _ = rec.payout := Nat.mul_div_cancel _ h0
    show (claimStep rec w).1 +
        (match (claimStep rec w).2 with
         | none => 0
         | some rec2 => runClaims rec2 ws) ≤ rec.payout
    cases hopt : (claimStep rec w).2 with
    | none => simpa [hopt] using hp
    | some rec2 =>
      obtain ⟨hc2, hp2⟩ := claimStep_snd_some hopt
      rw [hopt] at hrest
      have h2 : runClaims rec2 ws ≤ rec2.payout := ih rec2 hrest
      simp only [hopt]
      omega

lemma claimNext_eq (b len m : Nat) :
    claimNext b len m = (if m < len then some (b + m) else none) := by
  unfold claimNext
  rcases Nat.lt_or_ge m len with h | h
  · rw [min_eq_left h.le, if_pos (by omega), if_pos h]
  · rw [min_eq_right h, if_neg (by omega), if_neg (by omega)]

/-- Counterexample to C5 as stated: at the `claim_revenue` benchmark's own
state (record with 4 tracked contributions and resolved payout 10_000_000,
claimed by the 80-part full-mask region), a single `claim_revenue` call pays
200_000_000 — twenty times the record's resolved payout — and deletes the
record, exactly as the benchmark's `RevenueClaimPaid` assertion demands. -/
theorem claim_revenue_overpay_counterexample :
    runClaims { contributions := 4, payout := 10000000 } [80] = 200000000 ∧
    (10000000 : Nat) < 200000000 ∧
    (claimStep { contributions := 4, payout := 10000000 } 80).2 = none :=
  ⟨rfl, by decide, rfl⟩

/-- C5 (amended): across any sequence of `claim_revenue` calls in which each
claimed weight stays within the record's tracked remaining contributions,
the total paid out against one `InstaPoolHistoryRecord` never exceeds that
record's resolved payout; the record is deleted exactly when the cumulative
claimed contribution reaches (or would exceed) the record's total
contributions; and each call returns the next unclaimed `RegionId` boundary
— begin advanced by the number of timeslices walked — or none when the
region's span is exhausted. -/
theorem claim_revenue_spec (rec : PoolRecordState) (ws : List Nat)
    (hv : validClaims rec ws) (rec2 : PoolRecordState) (w b len m : Nat) :
    runClaims rec ws ≤ rec.payout ∧
    ((claimStep rec2 w).2 = none ↔ rec2.contributions ≤ w) ∧
    claimNext b len m = (if m < len then some (b + m) else none) :=
  ⟨runClaims_le ws rec hv, claimStep_snd_none rec2 w, claimNext_eq b len m⟩

/-- Witness for C5 with a consistent record (contributions 4, payout
10_000_000) claimed twice with weight 2, and the benchmark's boundary
bookkeeping (`region_length = 3`, `m = 2`). -/
theorem claim_revenue_spec_witness :
    runClaims { contributions := 4, payout := 10000000 } [2, 2] ≤ 10000000 ∧
    ((claimStep { contributions := 4, payout := 10000000 } 80).2 = none ↔
      (4 : Nat) ≤ 80) ∧
    claimNext 4 3 2 = (if 2 < 3 then some (4 + 2) else none) :=
  claim_revenue_spec { contributions := 4, payout := 10000000 } [2, 2]
    ⟨by decide, by decide, trivial⟩
    { contributions := 4, payout := 10000000 } 80 4 3 2



/-- C6: whenever a new sale record is created (by `start_sale` or by
rotation), its `end_price` equals the given initial/end price, its start
price is strictly greater than `end_price` and derived from it by a fixed
multiplicative factor, its region bounds equal the previous/committable
bounds shifted by one `region_length`, and its `cores_offered` equals
`core_count` minus reserved minus leased cores; a sale-initialized
notification carrying exactly these fields is emitted. -/
theorem new_sale_record_spec (now interlude leadin region_length end_price : Nat)
    (prev_region_begin prev_region_end core_count reserved leased : Nat)
    (hprice : 0 < end_price) :
    ∃ sale ev,
      newSaleRecord now interlude leadin region_length end_price
        prev_region_begin prev_region_end core_count reserved leased = (sale, ev) ∧
      sale.end_price = end_price ∧
      ev.start_price = LEADIN_FACTOR * end_price ∧
      end_price < ev.start_price ∧
      sale.region_begin = prev_region_begin + region_length ∧
      sale.region_end = prev_region_end + region_length ∧
      sale.cores_offered = core_count - reserved - leased ∧
      sale.cores_sold = 0 ∧ sale.sellout_price = none ∧
      ev.sale_start = sale.sale_start ∧ ev.leadin_length = sale.leadin_length ∧
      ev.end_price = sale.end_price ∧ ev.region_begin = sale.region_begin ∧
      ev.region_end = sale.region_end ∧
      ev.ideal_cores_sold = sale.ideal_cores_sold ∧
      ev.cores_offered = sale.cores_offered := by
  refine ⟨_, _, rfl, rfl, rfl, ?_, rfl, rfl, rfl, rfl, rfl, rfl, rfl, rfl, rfl,
    rfl, rfl, rfl⟩
  show end_price < LEADIN_FACTOR * end_price
  unfold LEADIN_FACTOR
  omega

/-- Witness for C6 at the `start_sales`/`rotate_sale` benchmark parameters:
`end_price = 10_000_000` yields `start_price = 1_000_000_000`. -/
theorem new_sale_record_spec_witness :
    ∃ sale ev,
      newSaleRecord 1 1 1 3 10000000 1 4 1000 10 10 = (sale, ev) ∧
      sale.end_price = 10000000 ∧
      ev.start_price = LEADIN_FACTOR * 10000000 ∧
      10000000 < ev.start_price ∧
      sale.region_begin = 1 + 3 ∧
      sale.region_end = 4 + 3 ∧
      sale.cores_offered = 1000 - 10 - 10 ∧
      sale.cores_sold = 0 ∧ sale.sellout_price = none ∧
      ev.sale_start = sale.sale_start ∧ ev.leadin_length = sale.leadin_length ∧
      ev.end_price = sale.end_price ∧ ev.region_begin = sale.region_begin ∧
      ev.region_end = sale.region_end ∧
      ev.ideal_cores_sold = sale.ideal_cores_sold ∧
      ev.cores_offered = sale.cores_offered :=
  new_sale_record_spec 1 1 1 3 10000000 1 4 1000 10 10 (by decide)

lemma renewIntent_old_core {bump : Nat} {sale : SaleInfoRecord}
    {records : Nat → Option (Nat × List ScheduleItem)}
    {intent : AutoRenewalRecord} {ex : RenewalExecution}
    (h : renewIntent bump sale records intent = some ex) :
    ex.event.old_core = intent.core := by
  unfold renewIntent at h
  split at h
  · split at h
    · simp at h
    · injection h with h
      subst h
      rfl
  · simp at h

/-- C7: during `rotate_sale`, every registered auto-renewal intent whose
core's commitment has elapsed is executed in ascending core-index order:
each purchases a fresh region at the bumped price, re-assigns the same task
with `Final` finality, and emits a renewed notification carrying both the
old and the new core index and the renewed workload. -/
theorem rotate_sale_renewals (bump : Nat) (sale : SaleInfoRecord)
    (records : Nat → Option (Nat × List ScheduleItem))
    (intents : List AutoRenewalRecord)
    (hs : intents.Pairwise (fun a b => a.core < b.core)) :
    (rotateRenewals bump sale records intents).Pairwise
      (fun a b => a.event.old_core < b.event.old_core) ∧
    (∀ intent ∈ intents, intent.next_renewal ≤ sale.region_begin →
      ∀ price workload, records intent.core = some (price, workload) →
        ∃ ex ∈ rotateRenewals bump sale records intents,
          renewIntent bump sale records intent = some ex ∧
          ex.event.who = intent.task ∧
          ex.event.old_core = intent.core ∧
          ex.event.core = intent.core ∧
          ex.event.price = bumpedPrice bump price ∧
          ex.event.rbegin = sale.region_begin ∧
          ex.event.duration = sale.region_end - sale.region_begin ∧
          ex.event.workload = workload ∧
          ex.workplan_key = (sale.region_begin, intent.core) ∧
          ex.finality = .Final) := by
  constructor
  · exact List.Pairwise.filterMap _
      (fun a b hab x hx y hy => by
        rw [renewIntent_old_core hx, renewIntent_old_core hy]; exact hab) hs
  · intro intent hmem hdue price workload hrec
    have h : renewIntent bump sale records intent = some
        { event := { who := intent.task, old_core := intent.core,
                     core := intent.core, price := bumpedPrice bump price,
                     rbegin := sale.region_begin,
                     duration := sale.region_end - sale.region_begin,
                     workload := workload },
          workplan_key := (sale.region_begin, intent.core),
          finality := .Final } := by
      unfold renewIntent
      rw [if_pos hdue, hrec]
    exact ⟨_, List.mem_filterMap.mpr ⟨intent, hmem, h⟩, h,
      rfl, rfl, rfl, rfl, rfl, rfl, rfl, rfl, rfl⟩

/-- Witness for C7 at the `rotate_sale` benchmark shape: the executions come
out in ascending core order and the intent on core 10 is executed at the
bumped price with `Final` finality. -/
theorem rotate_sale_renewals_witness :
    (rotateRenewals 10 c7sale c7records c7intents).Pairwise
      (fun a b => a.event.old_core < b.event.old_core) ∧
    ∃ ex ∈ rotateRenewals 10 c7sale c7records c7intents,
      renewIntent 10 c7sale c7records
        { core := 10, task := 1000, next_renewal := 7 } = some ex ∧
      ex.event.who = 1000 ∧
      ex.event.old_core = 10 ∧
      ex.event.core = 10 ∧
      ex.event.price = bumpedPrice 10 10 ∧
      ex.event.rbegin = c7sale.region_begin ∧
      ex.event.duration = c7sale.region_end - c7sale.region_begin ∧
      ex.event.workload = [{ assignment := .Task 1000, mask := completeMask }] ∧
      ex.workplan_key = (c7sale.region_begin, 10) ∧
      ex.finality = .Final := by
  obtain ⟨h1, h2⟩ := rotate_sale_renewals 10 c7sale c7records c7intents (by decide)
  exact ⟨h1, h2 { core := 10, task := 1000, next_renewal := 7 } (by decide)
    (by decide) 10 [{ assignment := .Task 1000, mask := completeMask }] rfl⟩

/-- C8: for every purchased region assigned to a task, with `Provisional`
finality the assignment produces a workplan entry at
`(region.begin, region.core)` and creates no renewal record, while with
`Final` finality it additionally creates a `PotentialRenewalRecord` keyed by
`(core, region.end) = (core, region.begin + region_length)` holding the
purchase price and the completed schedule. -/
theorem assign_workplan_and_renewal (r : FullRegion)
    (price task region_length : Nat)
    (hend : r.rend = r.rbegin + region_length) :
    ((assign r (some price) task .Provisional).1.1 = (r.rbegin, r.core) ∧
     (assign r (some price) task .Provisional).1.2 =
       [{ assignment := .Task task, mask := r.mask }] ∧
     (assign r (some price) task .Provisional).2 = none) ∧
    ((assign r (some price) task .Final).1.1 = (r.rbegin, r.core) ∧
     (assign r (some price) task .Final).1.2 =
       [{ assignment := .Task task, mask := r.mask }] ∧
     (assign r (some price) task .Final).2 =
       some ({ core := r.core, when := r.rbegin + region_length },
             { price := price,
               completion :=
                 .Complete [{ assignment := .Task task, mask := r.mask }] })) := by
  refine ⟨⟨rfl, rfl, rfl⟩, rfl, rfl, ?_⟩
  rw [← hend]
  rfl

/-- Witness for C8 at the benchmark's purchased region: begin 4, core 10,
full mask, `region_length = 3`, so the renewal key is `(10, 7)`. -/
theorem assign_workplan_and_renewal_witness :
    ((assign { rbegin := 4, rend := 7, core := 10, mask := completeMask,
               owner := 1 } (some 10000000) 1000 .Provisional).1.1 = (4, 10) ∧
     (assign { rbegin := 4, rend := 7, core := 10, mask := completeMask,
               owner := 1 } (some 10000000) 1000 .Provisional).1.2 =
       [{ assignment := .Task 1000, mask := completeMask }] ∧
     (assign { rbegin := 4, rend := 7, core := 10, mask := completeMask,
               owner := 1 } (some 10000000) 1000 .Provisional).2 = none) ∧
    ((assign { rbegin := 4, rend := 7, core := 10, mask := completeMask,
               owner := 1 } (some 10000000) 1000 .Final).1.1 = (4, 10) ∧
     (assign { rbegin := 4, rend := 7, core := 10, mask := completeMask,
               owner := 1 } (some 10000000) 1000 .Final).1.2 =
       [{ assignment := .Task 1000, mask := completeMask }] ∧
     (assign { rbegin := 4, rend := 7, core := 10, mask := completeMask,
               owner := 1 } (some 10000000) 1000 .Final).2 =
       some ({ core := 10, when := 4 + 3 },
             { price := 10000000,
               completion :=
                 .Complete [{ assignment := .Task 1000,
                              mask := completeMask }] })) :=
  assign_workplan_and_renewal
    { rbegin := 4, rend := 7, core := 10, mask := completeMask, owner := 1 }
    10000000 1000 3 rfl

lemma itemWeight_complete : itemWeight completeMask = 57600 := by decide

/-- C9: for every `(timeslice, core)` holding a workplan entry,
`process_core_schedule` replaces that core's workload wholesale with the
entry (the workload afterwards has exactly the entry's schedule items) and
emits a core-assigned notification enumerating one (assignment, weight)
pair per schedule item, with a complete-mask item weighted at the
full-capacity constant of 57600 parts. -/
theorem process_core_schedule_spec (rc_begin core : Nat)
    (sched old : List ScheduleItem) :
    ∃ ev, process_core_schedule rc_begin core (some sched) old = (sched, some ev) ∧
      ev.core = core ∧ ev.when = rc_begin ∧
      ev.assignment = sched.map (fun it => (it.assignment, itemWeight it.mask)) ∧
      ev.assignment.length = sched.length ∧
      (∀ it ∈ sched, it.mask = completeMask →
        (it.assignment, 57600) ∈ ev.assignment) := by
  refine ⟨_, rfl, rfl, rfl, rfl, List.length_map _ _, ?_⟩
  intro it hmem hcomp
  have : (it.assignment, itemWeight it.mask) ∈
      sched.map (fun it => (it.assignment, itemWeight it.mask)) :=
    List.mem_map_of_mem _ hmem
  rwa [hcomp, itemWeight_complete] at this

/-- Witness for C9 at the benchmark's 80-item full-mask schedule: each item
comes out weighted at 57600. -/
theorem process_core_schedule_spec_witness :
    ∃ ev, process_core_schedule 1 5 (some benchSchedule) [] =
        (benchSchedule, some ev) ∧
      ev.assignment.length = benchSchedule.length ∧
      (CoreAssignment.Task 0, 57600) ∈ ev.assignment := by
  obtain ⟨ev, h1, _, _, _, h5, h6⟩ := process_core_schedule_spec 1 5 benchSchedule []
  refine ⟨ev, h1, h5, ?_⟩
  have := h6 { assignment := .Task 0, mask := completeMask } ?_ rfl
  · exact this
  · rw [benchSchedule]
    exact List.mem_map_of_mem _ (by decide)

namespace ValidateUnsigned

/-- C10: `ValidateUnsignedDef::try_from` returns `Ok` exactly when the item
is a trait-impl block whose trait path's last segment is the identifier
`ValidateUnsigned` and the self-type and impl-generics helper checks pass;
a non-impl item, an inherent impl without a trait, or an impl of a
differently named trait each yield a `syn::Error` with a descriptive
message; the function is total, always returning `Ok` or an error and never
panicking. -/
theorem tryFrom_ok_iff (checkStruct checkGen : Except String Unit)
    (item : SynItem) :
    (tryFrom checkStruct checkGen item = .ok () ↔
      ((∃ segs, item = .implItem (some segs) ∧
          segs.getLast? = some "ValidateUnsigned") ∧
        checkStruct = .ok () ∧ checkGen = .ok ())) ∧
    tryFrom checkStruct checkGen .other =
      .error "Invalid pallet::validate_unsigned, expected item impl" ∧
    tryFrom checkStruct checkGen (.implItem none) =
      .error "Invalid pallet::validate_unsigned, expected impl<..> ValidateUnsigned for Pallet<..>" ∧
    (∀ segs last, segs.getLast? = some last → last ≠ "ValidateUnsigned" →
      tryFrom checkStruct checkGen (.implItem (some segs)) =
        .error "Invalid pallet::validate_unsigned, expected trait ValidateUnsigned") ∧
    (tryFrom checkStruct checkGen item = .ok () ∨
      ∃ msg, tryFrom checkStruct checkGen item = .error msg) := by
  refine ⟨?_, rfl, rfl, ?_, ?_⟩
  · cases item with
    | other => simp [tryFrom]
    | implItem segs? =>
      cases segs? with
      | none => simp [tryFrom]
      | some segs =>
        cases hlast : segs.getLast? with
        | none => simp [tryFrom, hlast]
        | some last =>
          by_cases hVU : last = "ValidateUnsigned"
          · subst hVU
            cases checkStruct with
            | error e => simp [tryFrom, hlast]
            | ok u =>
              cases u
              cases checkGen with
              | error e => simp [tryFrom, hlast]
              | ok u => cases u; simp [tryFrom, hlast]
          · simp only [tryFrom, hlast, if_neg hVU]
            constructor
            · intro h; simp at h
            · rintro ⟨⟨segs2, hseg, hlast2⟩, _, _⟩
              injection hseg with hseg
              injection hseg with hseg
              subst hseg
              rw [hlast] at hlast2
              injection hlast2 with hlast2
              exact absurd hlast2 hVU
  · intro segs last hlast hne
    simp [tryFrom, hlast, hne]
  · cases h : tryFrom checkStruct checkGen item with
    | ok u => cases u; exact .inl rfl
    | error e => exact .inr ⟨e, rfl⟩

/-- Witness for C10: a trait impl of `frame_support::..::ValidateUnsigned`
with passing helper checks is accepted; a trait impl of `Hooks` is rejected
with the trait-name error message. -/
theorem tryFrom_ok_iff_witness :
    tryFrom (.ok ()) (.ok ())
      (.implItem (some ["frame_support", "ValidateUnsigned"])) = .ok () ∧
    tryFrom (.ok ()) (.ok ()) (.implItem (some ["Hooks"])) =
      .error "Invalid pallet::validate_unsigned, expected trait ValidateUnsigned" :=
  ⟨(tryFrom_ok_iff (.ok ()) (.ok ())
      (.implItem (some ["frame_support", "ValidateUnsigned"]))).1.mpr
      ⟨⟨["frame_support", "ValidateUnsigned"], rfl, rfl⟩, rfl, rfl⟩,
   (tryFrom_ok_iff (.ok ()) (.ok ())
      (.implItem (some ["Hooks"]))).2.2.2.1 ["Hooks"] "Hooks" rfl (by decide)⟩

end ValidateUnsigned

end Broker
